import Mathlib

/-!
Verification of the Quarantine-Violation-Police-Alert backend protocol.

This development shallowly embeds the state and message-handling code of
`src/backend.py`, `src/beacon.py` and `src/client.py`:

* Datetime values (produced by `dt.utcnow()` and carried as strings in the
  fixed `database_dt_format = "%Y-%m-%d %H:%M:%S.%f"`) are modelled as
  abstract `Nat` instants.  The format is a fixed-width, zero-padded,
  injective and order-preserving encoding, and the code always compares
  *parsed* datetimes (`dt.strptime`) rather than raw strings, so
  `strftime`/`strptime` are modelled as the identity on these instants.
* Python `dict`s (the App database keyed by phone id, the Authority
  database keyed by beacon id, and the Authority violation log) are
  modelled as association lists in insertion order, with first-match
  lookup and in-place value replacement, exactly the observable dict
  semantics used by the code.
* The `cryptography.fernet` library (external to this repository) is
  modelled as an ideal authenticated symmetric cipher, per its documented
  contract: `Fernet(key).decrypt(ct)` returns the original plaintext
  exactly when `ct` was produced by `Fernet(key).encrypt` under the same
  key, and raises `InvalidToken` otherwise (wrong key, tamper, malformed
  bytes).
* Exceptions are modelled by explicit outcome constructors: a handler
  that would raise an uncaught Python exception (KeyError, IndexError)
  returns a dedicated error outcome instead of a state change.
-/

/-- Separator for transmitted strings (`separator = ","` in backend.py). -/
def separator : String := ","

/-- Header for AppBackend's transmitted strings (`app_header = "App"`). -/
def app_header : String := "App"

/-- Header for HealthAuthority's transmitted strings. -/
def health_authority_header : String := "HealthAuthority"

/-- Header for SmartPhone's transmitted strings. -/
def smartphone_header : String := "Smartphone"

/-- Auxiliary splitter: splits a character list at every `,`, accumulating
the current field in reverse.  Mirrors Python `str.split(",")`, which the
server sessions apply to the received message (backend.py line 235 and
line 315): it never returns an empty list, and empty fields are kept. -/
def splitCommaAux : List Char → List Char → List String
  | [], acc => [String.mk acc.reverse]
  | c :: cs, acc =>
    if c = ',' then String.mk acc.reverse :: splitCommaAux cs []
    else splitCommaAux cs (c :: acc)

/-- Python `message.split(separator)` with `separator = ","`. -/
def pySplit (s : String) : List String := splitCommaAux s.data []

/-- A Fernet wire token, as decrypted by `AppBackend._decrypt_token`.
Modelled from the documented contract of the `cryptography.fernet`
library (which is not part of this repository): a ciphertext is either a
genuine token produced by `Fernet(key).encrypt` — whose plaintext here is
always a datetime instant, as encrypted by `SmartBeacon.routine` — or
arbitrary other bytes that fail authentication under every key. -/
inductive Ciphertext where
  | token (key : String) (dtVal : Nat)
  | malformed (raw : String)
deriving DecidableEq, Repr

/-- Fernet encryption of a datetime instant under a symmetric key, as
performed by `SmartBeacon.routine` (beacon.py lines 46-48):
`Fernet(self._key).encrypt(str.encode(dt.utcnow().strftime(fmt)))`. -/
def fernetEncrypt (key : String) (t : Nat) : Ciphertext :=
  Ciphertext.token key t

/-- Fernet decryption under a symmetric key, as performed by
`AppBackend._decrypt_token` (backend.py line 167):
`Fernet(key).decrypt(str.encode(ciphertext)).decode()` followed by
`dt.strptime`.  Returns `none` exactly where the library raises
`InvalidToken` (key mismatch, tamper, malformed bytes). -/
def fernetDecrypt (key : String) : Ciphertext → Option Nat
  | Ciphertext.token k t => if k = key then some t else none
  | Ciphertext.malformed _ => none

/-- First-match lookup in an insertion-ordered association list; models
`d[k]` / `k in d` on a Python dict. -/
def dbLookup {α : Type} : List (String × α) → String → Option α
  | [], _ => none
  | e :: es, k => if e.1 = k then some e.2 else dbLookup es k

/-- Insert-or-replace in an insertion-ordered association list; models
`d[k] = v` on a Python dict (an existing key keeps its position, a new
key is appended at the end). -/
def dbInsert {α : Type} : List (String × α) → String → α → List (String × α)
  | [], k, v => [(k, v)]
  | e :: es, k, v => if e.1 = k then (k, v) :: es else e :: dbInsert es k v

/-- One subject record of the AppBackend database: the value
`[id_beacon, key, lastSeen]` stored at `self._database[id_phone]`
(backend.py line 137). -/
structure SubjectRecord where
  idBeacon : String
  key : String
  lastSeen : Nat
deriving DecidableEq, Repr

/-- The AppBackend database, keyed by phone id. -/
abbrev AppDB := List (String × SubjectRecord)

/-- AppBackend state: the in-memory database plus the contents of the
`database.json` snapshot (rewritten by `json.dump` after each mutation). -/
structure AppState where
  db : AppDB
  persisted : AppDB
deriving DecidableEq, Repr

/-- `AppBackend._add_phone` (backend.py lines 126-139): overwrites the
subject record of `id_phone` with `[id_beacon, key, utcnow]` and dumps
the database to its json snapshot within the same call. -/
def addPhone (st : AppState) (idPhone idBeacon key : String) (now : Nat) : AppState :=
  let db' := dbInsert st.db idPhone ⟨idBeacon, key, now⟩
  ⟨db', db'⟩

/-- Outcome classification of one `AppBackend._decrypt_token` call:
`invalidPhone` — `_get_key` found no record and logged "Invalid Phone";
`invalidToken` — Fernet raised `InvalidToken`, caught and logged;
`updated` — decryption succeeded with a strictly newer datetime, record
updated and persisted; `staleNoop` — decryption succeeded with an
older-or-equal datetime, nothing done and no exception raised. -/
inductive TokenOutcome where
  | invalidPhone
  | invalidToken
  | updated
  | staleNoop
deriving DecidableEq, Repr

/-- `AppBackend._decrypt_token` (backend.py lines 153-175).  `_get_key`
(lines 141-151) returns `self._database[id_phone][1]`, so a successful
key lookup is exactly a successful record lookup; on decrypt success the
new datetime is compared with the stored one and the record is updated
and persisted only when strictly newer. -/
def observeStep (st : AppState) (idPhone : String) (c : Ciphertext) :
    TokenOutcome × AppState :=
  match dbLookup st.db idPhone with
  | none => (TokenOutcome.invalidPhone, st)
  | some r =>
    match fernetDecrypt r.key c with
    | none => (TokenOutcome.invalidToken, st)
    | some t =>
      if r.lastSeen < t then
        let db' := dbInsert st.db idPhone ⟨r.idBeacon, r.key, t⟩
        (TokenOutcome.updated, ⟨db', db'⟩)
      else
        (TokenOutcome.staleNoop, st)

/-- The state after one `_decrypt_token` call. -/
def observe (st : AppState) (idPhone : String) (c : Ciphertext) : AppState :=
  (observeStep st idPhone c).2

/-- The state after a sequence of `_decrypt_token` calls, in delivery
order. -/
def observeAll (st : AppState) (msgs : List (String × Ciphertext)) : AppState :=
  msgs.foldl (fun s m => observe s m.1 m.2) st

/-- The alert string `separator.join([app_header, id_beacon])` sent to
the AuthorityBackend (backend.py line 212). -/
def appAlertMsg (idBeacon : String) : String :=
  String.intercalate separator [app_header, idBeacon]

/-- `AppBackend.control_routine` (backend.py lines 200-212): for each
subject, in database order, if `utcnow > lastSeen + td_expire` then an
alert carrying that subject's beacon id is sent to the Authority.
Returns the list of alert messages emitted during one tick. -/
def controlRoutine (db : AppDB) (tdExpire now : Nat) : List String :=
  db.filterMap (fun e =>
    if e.2.lastSeen + tdExpire < now then some (appAlertMsg e.2.idBeacon)
    else none)

-- sanity: split/alert formatting on concrete strings
example : pySplit "HealthAuthority,p,b" = ["HealthAuthority", "p", "b"] := by decide
example : pySplit "" = [""] := by decide
example : pySplit "a,b," = ["a", "b", ""] := by decide
example : appAlertMsg "b1" = "App,b1" := by decide

/-- The AuthorityBackend violation log (`self._log`, log.json): beacon id
to the ordered list of violation datetimes. -/
abbrev Ledger := List (String × List Nat)

/-- AuthorityBackend state: its own subject database (beacon id to patient
info, populated by `add_beacon`), the in-memory violation log, and the
contents of the `log.json` snapshot. -/
structure AuthState where
  db : List (String × String)
  log : Ledger
  persistedLog : Ledger
deriving DecidableEq, Repr

/-- The violation-log update inside `AuthorityBackend._add_datetime`
(backend.py lines 270-274): the list of a beacon absent from the log is
created with the single current datetime, an existing list gets the
current datetime appended at its end. -/
def ledgerAppend : Ledger → String → Nat → Ledger
  | [], b, now => [(b, [now])]
  | e :: es, b, now =>
    if e.1 = b then (e.1, e.2 ++ [now]) :: es else e :: ledgerAppend es b now

/-- Outcome classification of one message handled by
`AuthorityBackend.server_session`: `recorded` — a violation datetime was
appended and persisted; `keyError` — an uncaught Python `KeyError`
escaped the handler (crashing the accept-loop thread); `ignored` — the
leading role tag matched no handler; `indexError` — an uncaught
`IndexError` from a field access beyond the end of the split message. -/
inductive AuthOutcome where
  | recorded
  | keyError
  | ignored
  | indexError
deriving DecidableEq, Repr

/-- `AuthorityBackend._add_datetime` (backend.py lines 262-278).  The
very first statement, `update_execution_log(["Quarantine Violation",
id_beacon, self._database[id_beacon]])`, subscripts the subject database
*before* the `if id_beacon in self._database` membership test: for an
unknown beacon it raises an uncaught `KeyError` (outcome `keyError`,
state unchanged), and the code's own `else` branch logging "Invalid
Beacon" is unreachable.  For a known beacon the membership test then
necessarily succeeds, the violation log is appended to and dumped to its
json snapshot. -/
def addDatetime (st : AuthState) (idBeacon : String) (now : Nat) :
    AuthOutcome × AuthState :=
  match dbLookup st.db idBeacon with
  | none => (AuthOutcome.keyError, st)
  | some _ =>
    let log' := ledgerAppend st.log idBeacon now
    (AuthOutcome.recorded, ⟨st.db, log', log'⟩)

/-- `AuthorityBackend.server_session` dispatch (backend.py lines
315-317): split the decoded message on the separator; if the leading
field is `app_header`, invoke `_add_datetime` on field 1 (an access past
the end of the split message raises `IndexError`); any other leading
field matches no handler. -/
def authorityServerStep (st : AuthState) (msg : String) (now : Nat) :
    AuthOutcome × AuthState :=
  let data := pySplit msg
  if data[0]? = some app_header then
    match data[1]? with
    | some b => addDatetime st b now
    | none => (AuthOutcome.indexError, st)
  else
    (AuthOutcome.ignored, st)

/-- Outcome classification of one message handled by
`AppBackend.server_session`: which handler (if any) was invoked, or that
an uncaught `IndexError` escaped from a field access beyond the end of
the split message. -/
inductive AppMsgOutcome where
  | registered
  | tokenHandled (o : TokenOutcome)
  | ignored
  | indexError
deriving DecidableEq, Repr

/-- `AppBackend.server_session` dispatch (backend.py lines 235-239):
split the decoded message on the separator; a leading `HealthAuthority`
field invokes `_add_phone(data[1], data[2], data[3])`, a leading
`Smartphone` field invokes `_decrypt_token(data[1], data[2])`, any other
leading field matches no handler.  The two source `if` statements are
mutually exclusive because the two headers differ.  A field access past
the end of the split message raises an uncaught `IndexError`.  The
ciphertext travels on the wire as a string; its reading as Fernet token
bytes is the library's encoding, abstracted here as the parameter
`dc`. -/
def appServerStep (dc : String → Ciphertext) (st : AppState) (msg : String)
    (now : Nat) : AppMsgOutcome × AppState :=
  let data := pySplit msg
  if data[0]? = some health_authority_header then
    match data[1]?, data[2]?, data[3]? with
    | some p, some b, some k => (AppMsgOutcome.registered, addPhone st p b k now)
    | _, _, _ => (AppMsgOutcome.indexError, st)
  else if data[0]? = some smartphone_header then
    match data[1]?, data[2]? with
    | some p, some c =>
      let r := observeStep st p (dc c)
      (AppMsgOutcome.tokenHandled r.1, r.2)
    | _, _ => (AppMsgOutcome.indexError, st)
  else
    (AppMsgOutcome.ignored, st)

/-- The `cert_reqs` argument of `ssl.wrap_socket`; when the argument is
omitted the `ssl` module default is `CERT_NONE`. -/
inductive CertReqs where
  | certNone
  | certOptional
  | certRequired
deriving DecidableEq, Repr

/-- The authentication-relevant arguments of one `ssl.wrap_socket` call
site: whether it runs the server side of the handshake, whether it
passes `keyfile`/`certfile` (presents its own certificate), its
`cert_reqs` policy for the peer certificate, and whether it passes
`ca_certs` (validates the peer against the imported trusted
certificate). -/
structure SSLSessionConfig where
  serverSide : Bool
  presentsOwnCert : Bool
  certReqs : CertReqs
  validatesPeerCert : Bool
deriving DecidableEq, Repr

/-- The `ssl.wrap_socket` call in `AppBackend.server_session`
(backend.py lines 227-233): `keyfile`, `certfile`, `server_side=True`,
`ssl_version`, `ciphers` — no `cert_reqs` (so the default `CERT_NONE`)
and no `ca_certs`. -/
def appServerSessionTLS : SSLSessionConfig :=
  ⟨true, true, CertReqs.certNone, false⟩

/-- The `ssl.wrap_socket` call in `AuthorityBackend.server_session`
(backend.py lines 305-313): `keyfile`, `certfile`, `server_side=True`,
`cert_reqs=ssl.CERT_REQUIRED`, `ca_certs`. -/
def authorityServerSessionTLS : SSLSessionConfig :=
  ⟨true, true, CertReqs.certRequired, true⟩

/-- The `ssl.wrap_socket` call in `Client._client_session`
(client.py lines 54-59), used by both HealthAuthority and SmartPhone:
`cert_reqs=ssl.CERT_REQUIRED`, `ca_certs` — no `keyfile`/`certfile`, so
the client presents no certificate of its own. -/
def clientSessionTLS : SSLSessionConfig :=
  ⟨false, false, CertReqs.certRequired, true⟩

/-- The `ssl.wrap_socket` call in `AppBackend._client_session`
(backend.py lines 187-194), used to send alerts to the Authority:
`keyfile`, `certfile`, `cert_reqs=ssl.CERT_REQUIRED`, `ca_certs`. -/
def appClientSessionTLS : SSLSessionConfig :=
  ⟨false, true, CertReqs.certRequired, true⟩

/-- A connection is mutually authenticated when the server requires the
client's certificate and validates it against its trusted certificate,
the client presents a certificate, and the client in turn requires and
validates the server's certificate. -/
def mutuallyAuthenticatedTLS (server client : SSLSessionConfig) : Bool :=
  server.certReqs == CertReqs.certRequired && server.validatesPeerCert &&
  client.presentsOwnCert &&
  client.certReqs == CertReqs.certRequired && client.validatesPeerCert

/-! Helper lemmas about the association-list operations. -/

theorem dbLookup_dbInsert_self {α : Type} (db : List (String × α)) (k : String)
    (v : α) : dbLookup (dbInsert db k v) k = some v := by
  induction db with
  | nil => simp [dbInsert, dbLookup]
  | cons e es ih =>
    by_cases h : e.1 = k
    · simp [dbInsert, h, dbLookup]
    · simp [dbInsert, h, dbLookup, ih]

theorem dbLookup_dbInsert_ne {α : Type} (db : List (String × α)) (k q : String)
    (v : α) (h : q ≠ k) : dbLookup (dbInsert db k v) q = dbLookup db q := by
  have hk : k ≠ q := Ne.symm h
  induction db with
  | nil => simp [dbInsert, dbLookup, hk]
  | cons e es ih =>
    by_cases he : e.1 = k
    · have heq : ¬ e.1 = q := by rw [he]; exact hk
      simp [dbInsert, he, dbLookup, heq, hk]
    · simp [dbInsert, he, dbLookup, ih]

theorem ledgerAppend_lookup_self (log : Ledger) (b : String) (now : Nat) :
    dbLookup (ledgerAppend log b now) b =
      some (((dbLookup log b).getD []) ++ [now]) := by
  induction log with
  | nil => simp [ledgerAppend, dbLookup]
  | cons e es ih =>
    by_cases h : e.1 = b
    · simp [ledgerAppend, h, dbLookup]
    · simp [ledgerAppend, h, dbLookup, ih]

theorem ledgerAppend_lookup_ne (log : Ledger) (b b2 : String) (now : Nat)
    (h : b2 ≠ b) : dbLookup (ledgerAppend log b now) b2 = dbLookup log b2 := by
  have hb : b ≠ b2 := Ne.symm h
  induction log with
  | nil => simp [ledgerAppend, dbLookup, hb]
  | cons e es ih =>
    by_cases he : e.1 = b
    · have heq : ¬ e.1 = b2 := by rw [he]; exact hb
      simp [ledgerAppend, he, dbLookup, heq, hb]
    · simp [ledgerAppend, he, dbLookup, ih]

/-! Helper lemmas about the observe step. -/

theorem observe_step_mono (st : AppState) (p : String) (c : Ciphertext)
    (q : String) (r : SubjectRecord) (h : dbLookup st.db q = some r) :
    ∃ r2, dbLookup (observe st p c).db q = some r2 ∧
      r.lastSeen ≤ r2.lastSeen := by
  unfold observe observeStep
  cases hp : dbLookup st.db p with
  | none => exact ⟨r, by simp [h], le_refl _⟩
  | some rp =>
    cases hc : fernetDecrypt rp.key c with
    | none => exact ⟨r, by simp [hc, h], le_refl _⟩
    | some t =>
      by_cases ht : rp.lastSeen < t
      · by_cases hq : q = p
        · subst hq
          rw [hp] at h
          cases h
          exact ⟨⟨r.idBeacon, r.key, t⟩,
            by simp [hc, ht, dbLookup_dbInsert_self], le_of_lt ht⟩
        · exact ⟨r, by simp [hc, ht, dbLookup_dbInsert_ne st.db p q _ hq, h],
            le_refl _⟩
      · exact ⟨r, by simp [hc, ht, h], le_refl _⟩

theorem observeAll_mono (msgs : List (String × Ciphertext)) (st : AppState)
    (q : String) (r : SubjectRecord) (h : dbLookup st.db q = some r) :
    ∃ r2, dbLookup (observeAll st msgs).db q = some r2 ∧
      r.lastSeen ≤ r2.lastSeen := by
  induction msgs generalizing st r with
  | nil => exact ⟨r, h, le_refl _⟩
  | cons m ms ih =>
    obtain ⟨r1, h1, le1⟩ := observe_step_mono st m.1 m.2 q r h
    obtain ⟨r2, h2, le2⟩ := ih (observe st m.1 m.2) r1 h1
    exact ⟨r2, by simpa [observeAll] using h2, le_trans le1 le2⟩

/-! Claim theorems. -/

/-- C1: for every subject record in the AppBackend registry, the stored
lastSeen is non-decreasing across any sequence of `_decrypt_token` calls,
in any delivery order: a successfully decrypted datetime strictly greater
than the stored one updates the record, and an older-or-equal decrypted
datetime leaves the state completely unchanged with the no-error
`staleNoop` classification. -/
theorem observe_lastSeen_monotone (st : AppState)
    (msgs : List (String × Ciphertext)) (p : String) (r r2 : SubjectRecord)
    (c : Ciphertext) (t : Nat)
    (h : dbLookup st.db p = some r)
    (h2 : dbLookup (observeAll st msgs).db p = some r2)
    (hc : fernetDecrypt r.key c = some t) :
    r.lastSeen ≤ r2.lastSeen ∧
    (r.lastSeen < t →
      (observeStep st p c).1 = TokenOutcome.updated ∧
      dbLookup (observe st p c).db p = some ⟨r.idBeacon, r.key, t⟩) ∧
    (t ≤ r.lastSeen →
      observeStep st p c = (TokenOutcome.staleNoop, st)) := by
  refine ⟨?_, ?_, ?_⟩
  · obtain ⟨r3, h3, le3⟩ := observeAll_mono msgs st p r h
    rw [h2] at h3
    cases h3
    exact le3
  · intro ht
    constructor
    · simp [observeStep, h, hc, ht]
    · simp [observe, observeStep, h, hc, ht, dbLookup_dbInsert_self]
  · intro ht
    simp [observeStep, h, hc, Nat.not_lt.mpr ht]

/-- Witness for C1: a registry with lastSeen 5 receives a fresh token
(9), then a replayed old token (3), then the fresh token again; lastSeen
ends at 9, and a token carrying 7 against the initial state exercises
both the strict-update and the stale-no-op characterizations. -/
theorem observe_lastSeen_monotone_witness :
    dbLookup (AppState.mk [("p1", SubjectRecord.mk "b1" "k1" 5)]
        [("p1", SubjectRecord.mk "b1" "k1" 5)]).db "p1" =
      some (SubjectRecord.mk "b1" "k1" 5) ∧
    dbLookup (observeAll
        (AppState.mk [("p1", SubjectRecord.mk "b1" "k1" 5)]
          [("p1", SubjectRecord.mk "b1" "k1" 5)])
        [("p1", Ciphertext.token "k1" 9), ("p1", Ciphertext.token "k1" 3),
          ("p1", Ciphertext.token "k1" 9)]).db "p1" =
      some (SubjectRecord.mk "b1" "k1" 9) ∧
    fernetDecrypt "k1" (Ciphertext.token "k1" 7) = some 7 ∧
    ((5 : Nat) ≤ 9 ∧
      ((5 : Nat) < 7 →
        (observeStep (AppState.mk [("p1", SubjectRecord.mk "b1" "k1" 5)]
            [("p1", SubjectRecord.mk "b1" "k1" 5)]) "p1"
            (Ciphertext.token "k1" 7)).1 = TokenOutcome.updated ∧
        dbLookup (observe (AppState.mk [("p1", SubjectRecord.mk "b1" "k1" 5)]
            [("p1", SubjectRecord.mk "b1" "k1" 5)]) "p1"
            (Ciphertext.token "k1" 7)).db "p1" =
          some (SubjectRecord.mk "b1" "k1" 7)) ∧
      ((7 : Nat) ≤ 5 →
        observeStep (AppState.mk [("p1", SubjectRecord.mk "b1" "k1" 5)]
            [("p1", SubjectRecord.mk "b1" "k1" 5)]) "p1"
            (Ciphertext.token "k1" 7) =
          (TokenOutcome.staleNoop,
            AppState.mk [("p1", SubjectRecord.mk "b1" "k1" 5)]
              [("p1", SubjectRecord.mk "b1" "k1" 5)]))) :=
  ⟨by decide, by decide, by decide,
    observe_lastSeen_monotone
      (AppState.mk [("p1", SubjectRecord.mk "b1" "k1" 5)]
        [("p1", SubjectRecord.mk "b1" "k1" 5)])
      [("p1", Ciphertext.token "k1" 9), ("p1", Ciphertext.token "k1" 3),
        ("p1", Ciphertext.token "k1" 9)]
      "p1" (SubjectRecord.mk "b1" "k1" 5) (SubjectRecord.mk "b1" "k1" 9)
      (Ciphertext.token "k1" 7) 7 (by decide) (by decide) (by decide)⟩

/-- C2: decrypting, with the same key and as `AppBackend._decrypt_token`
does, the ciphertext produced by encrypting a datetime under a symmetric
key (as `SmartBeacon.routine` does with Fernet) yields exactly the
original datetime. -/
theorem fernet_roundtrip_beacon_token (key : String) (t : Nat) :
    fernetDecrypt key (fernetEncrypt key t) = some t := by
  simp [fernetDecrypt, fernetEncrypt]

/-- C5: for a registered phone, a ciphertext that fails
authentication/decryption under the stored key is classified
`invalidToken` (the caught, logged `InvalidToken` path) with the whole
state — registry and snapshot — unchanged and no escaping exception; and
decryption under the stored key of any token produced under a different
key always fails, never yielding a spurious datetime. -/
theorem decrypt_failure_classified_no_mutation (st : AppState) (p : String)
    (r : SubjectRecord) (c : Ciphertext)
    (h : dbLookup st.db p = some r) (hc : fernetDecrypt r.key c = none) :
    observeStep st p c = (TokenOutcome.invalidToken, st) ∧
    (∀ k t, k ≠ r.key → fernetDecrypt r.key (fernetEncrypt k t) = none) := by
  constructor
  · simp [observeStep, h, hc]
  · intro k t hk
    simp [fernetDecrypt, fernetEncrypt, hk]

/-- Witness for C5: a malformed ciphertext delivered for a registered
phone is classified `invalidToken` and the state is unchanged. -/
theorem decrypt_failure_classified_no_mutation_witness :
    dbLookup (AppState.mk [("p1", SubjectRecord.mk "b1" "k1" 5)]
        [("p1", SubjectRecord.mk "b1" "k1" 5)]).db "p1" =
      some (SubjectRecord.mk "b1" "k1" 5) ∧
    fernetDecrypt "k1" (Ciphertext.malformed "zz") = none ∧
    (observeStep (AppState.mk [("p1", SubjectRecord.mk "b1" "k1" 5)]
        [("p1", SubjectRecord.mk "b1" "k1" 5)]) "p1"
        (Ciphertext.malformed "zz") =
      (TokenOutcome.invalidToken,
        AppState.mk [("p1", SubjectRecord.mk "b1" "k1" 5)]
          [("p1", SubjectRecord.mk "b1" "k1" 5)]) ∧
    (∀ k t, k ≠ "k1" → fernetDecrypt "k1" (fernetEncrypt k t) = none)) :=
  ⟨by decide, by decide,
    decrypt_failure_classified_no_mutation
      (AppState.mk [("p1", SubjectRecord.mk "b1" "k1" 5)]
        [("p1", SubjectRecord.mk "b1" "k1" 5)])
      "p1" (SubjectRecord.mk "b1" "k1" 5) (Ciphertext.malformed "zz")
      (by decide) (by decide)⟩

/-- C7: `_add_phone` inserts or completely overwrites the subject record
of a phone id — after a second registration the stored beacon id, key
and lastSeen are all those of the second call, with lastSeen the current
time of that call — the snapshot is persisted synchronously within the
call, and no other phone's record is touched. -/
theorem register_overwrites_record (st : AppState)
    (p b1 k1 b2 k2 : String) (t1 t2 : Nat) :
    dbLookup (addPhone st p b1 k1 t1).db p = some (SubjectRecord.mk b1 k1 t1) ∧
    (addPhone st p b1 k1 t1).persisted = (addPhone st p b1 k1 t1).db ∧
    dbLookup (addPhone (addPhone st p b1 k1 t1) p b2 k2 t2).db p =
      some (SubjectRecord.mk b2 k2 t2) ∧
    (addPhone (addPhone st p b1 k1 t1) p b2 k2 t2).persisted =
      (addPhone (addPhone st p b1 k1 t1) p b2 k2 t2).db ∧
    (∀ q, q ≠ p → dbLookup (addPhone st p b1 k1 t1).db q = dbLookup st.db q) := by
  refine ⟨?_, rfl, ?_, rfl, ?_⟩
  · exact dbLookup_dbInsert_self st.db p _
  · exact dbLookup_dbInsert_self _ p _
  · intro q hq
    exact dbLookup_dbInsert_ne st.db p q _ hq

/-- C3: at one `control_routine` tick with tolerance `tdExpire`, the
emitted alerts are exactly one alert per registry subject whose gap
`now - lastSeen` strictly exceeds the tolerance, carrying that subject's
beacon id, in registry order; and an alert message appears in the output
iff some subject of the current registry is stale by that strict margin
— the check is memoryless, a pure function of the registry at the tick. -/
theorem control_routine_alert_characterization (db : AppDB) (tol now : Nat) :
    controlRoutine db tol now =
      (db.filter
          (fun e => decide ((tol : ℤ) < (now : ℤ) - (e.2.lastSeen : ℤ)))).map
        (fun e => appAlertMsg e.2.idBeacon) ∧
    (∀ m, m ∈ controlRoutine db tol now ↔
      ∃ p r, (p, r) ∈ db ∧ (tol : ℤ) < (now : ℤ) - (r.lastSeen : ℤ) ∧
        m = appAlertMsg r.idBeacon) := by
  have key : ∀ (e : String × SubjectRecord),
      (e.2.lastSeen + tol < now) ↔
        ((tol : ℤ) < (now : ℤ) - (e.2.lastSeen : ℤ)) := by
    intro e
    omega
  constructor
  · induction db with
    | nil => rfl
    | cons e es ih =>
      by_cases hcond : e.2.lastSeen + tol < now
      · have h2 := (key e).mp hcond
        simpa [controlRoutine, List.filterMap_cons, List.filter_cons, hcond,
          h2] using ih
      · have h2 : ¬ ((tol : ℤ) < (now : ℤ) - (e.2.lastSeen : ℤ)) :=
          fun hh => hcond ((key e).mpr hh)
        simpa [controlRoutine, List.filterMap_cons, List.filter_cons, hcond,
          h2] using ih
  · intro m
    constructor
    · intro hm
      obtain ⟨e, he, hf⟩ := List.mem_filterMap.mp hm
      by_cases hcond : e.2.lastSeen + tol < now
      · simp only [if_pos hcond, Option.some.injEq] at hf
        exact ⟨e.1, e.2, by simpa using he, (key e).mp hcond, hf.symm⟩
      · simp only [if_neg hcond] at hf
        exact absurd hf (by simp)
    · rintro ⟨p, r, hin, hcond, rfl⟩
      refine List.mem_filterMap.mpr ⟨(p, r), hin, ?_⟩
      have : (p, r).2.lastSeen + tol < now := (key (p, r)).mpr hcond
      simp [this]

/-- C4 is a code bug, demonstrated here: for a beacon id absent from the
AuthorityBackend subject database, `_add_datetime` subscripts
`self._database[id_beacon]` inside its first logging statement, before
the membership test, raising an uncaught `KeyError` that escapes
`server_session` (outcome `keyError`) instead of the intended logged,
non-fatal "Invalid Beacon" path; nothing is appended to the violation
log, but the accept-loop thread is killed. -/
theorem addDatetime_unknown_beacon_crashes :
    authorityServerStep (AuthState.mk [("beacon_01", "info_01")] [] [])
        "App,beacon_99" 0 =
      (AuthOutcome.keyError, AuthState.mk [("beacon_01", "info_01")] [] []) ∧
    addDatetime (AuthState.mk [("beacon_01", "info_01")] [] [])
        "beacon_99" 0 =
      (AuthOutcome.keyError, AuthState.mk [("beacon_01", "info_01")] [] []) := by
  decide

/-- Counterexample to C6: the `ssl.wrap_socket` call of
`AppBackend.server_session` passes neither `cert_reqs` (so the ssl
default `CERT_NONE` applies) nor `ca_certs`: the AppBackend server does
not require, and cannot validate, the connecting client's certificate,
so a phone connection to the AppBackend is not mutually authenticated. -/
theorem app_server_session_not_mutually_authenticated :
    mutuallyAuthenticatedTLS appServerSessionTLS clientSessionTLS = false ∧
    appServerSessionTLS.certReqs ≠ CertReqs.certRequired ∧
    appServerSessionTLS.validatesPeerCert = false := by
  decide

/-- C6 as amended: connections into the AppBackend server are
server-authenticated only — the server presents its certificate but
requires none from the client (`CERT_NONE`, no `ca_certs`), and the
phone/health-authority client validates the server certificate while
presenting none of its own; mutual authentication holds only on the
alert channel into the AuthorityBackend server, which requires and
validates the client certificate against the imported trusted peer. -/
theorem tls_authentication_configuration :
    appServerSessionTLS.certReqs = CertReqs.certNone ∧
    appServerSessionTLS.validatesPeerCert = false ∧
    appServerSessionTLS.presentsOwnCert = true ∧
    clientSessionTLS.certReqs = CertReqs.certRequired ∧
    clientSessionTLS.validatesPeerCert = true ∧
    clientSessionTLS.presentsOwnCert = false ∧
    mutuallyAuthenticatedTLS appServerSessionTLS clientSessionTLS = false ∧
    mutuallyAuthenticatedTLS authorityServerSessionTLS appClientSessionTLS
      = true := by
  decide

/-- C8: each successful `_add_datetime` call leaves the violation log
append-only — the alerted beacon's list is created as the singleton of
the current datetime or extended by it at the end, every other beacon's
list is untouched, every previously present list is a prefix of its
successor, and the snapshot is persisted to the new log within the
call. -/
theorem ledger_append_only_on_success (st : AuthState) (b : String)
    (now : Nat) (st2 : AuthState)
    (h : addDatetime st b now = (AuthOutcome.recorded, st2)) :
    st2.log = ledgerAppend st.log b now ∧
    st2.persistedLog = st2.log ∧
    dbLookup st2.log b = some (((dbLookup st.log b).getD []) ++ [now]) ∧
    (∀ b2, b2 ≠ b → dbLookup st2.log b2 = dbLookup st.log b2) ∧
    (∀ b2 l, dbLookup st.log b2 = some l →
      ∃ l2, dbLookup st2.log b2 = some l2 ∧ l <+: l2) := by
  have hst : st2 =
      AuthState.mk st.db (ledgerAppend st.log b now)
        (ledgerAppend st.log b now) := by
    unfold addDatetime at h
    cases hdb : dbLookup st.db b with
    | none => rw [hdb] at h; simp at h
    | some i =>
      rw [hdb] at h
      injection h with h1 h2
      exact h2.symm
  subst hst
  refine ⟨rfl, rfl, ledgerAppend_lookup_self _ _ _, ?_, ?_⟩
  · intro b2 hb2
    exact ledgerAppend_lookup_ne st.log b b2 now hb2
  · intro b2 l hl
    by_cases hb2 : b2 = b
    · subst hb2
      refine ⟨l ++ [now], ?_, List.prefix_append l [now]⟩
      rw [ledgerAppend_lookup_self, hl]
      rfl
    · exact ⟨l,
        by rw [ledgerAppend_lookup_ne st.log b b2 now hb2]; exact hl,
        List.prefix_refl l⟩

/-- Witness for C8: a ledger in which beacon b1 already has one
violation gains exactly one appended datetime on a successful call. -/
theorem ledger_append_only_on_success_witness :
    addDatetime (AuthState.mk [("b1", "info")] [("b1", [1])] [("b1", [1])])
        "b1" 2 =
      (AuthOutcome.recorded,
        AuthState.mk [("b1", "info")] [("b1", [1, 2])] [("b1", [1, 2])]) ∧
    (([("b1", [1, 2])] : Ledger) = ledgerAppend [("b1", [1])] "b1" 2 ∧
      ([("b1", [1, 2])] : Ledger) = [("b1", [1, 2])] ∧
      dbLookup [("b1", [1, 2])] "b1" =
        some (((dbLookup [("b1", [1])] "b1").getD []) ++ [2]) ∧
      (∀ b2, b2 ≠ "b1" →
        dbLookup [("b1", [1, 2])] b2 = dbLookup [("b1", [1])] b2) ∧
      (∀ b2 l, dbLookup ([("b1", [1])] : Ledger) b2 = some l →
        ∃ l2, dbLookup ([("b1", [1, 2])] : Ledger) b2 = some l2 ∧
          l <+: l2)) :=
  ⟨by decide,
    ledger_append_only_on_success
      (AuthState.mk [("b1", "info")] [("b1", [1])] [("b1", [1])]) "b1" 2
      (AuthState.mk [("b1", "info")] [("b1", [1, 2])] [("b1", [1, 2])])
      (by decide)⟩

/-- C9: in both server dispatches, a message whose leading
comma-separated field is none of the recognized role tags invokes no
handler and leaves the backend state — database, violation log, and
persisted snapshots — entirely unchanged, while a recognized leading tag
on a message of its fixed shape invokes exactly the one corresponding
handler. -/
theorem dispatch_unrecognized_tag_frame (dc : String → Ciphertext)
    (st : AppState) (stA : AuthState) (now : Nat) :
    (∀ msg, (pySplit msg)[0]? ≠ some health_authority_header →
      (pySplit msg)[0]? ≠ some smartphone_header →
      appServerStep dc st msg now = (AppMsgOutcome.ignored, st)) ∧
    (∀ msg, (pySplit msg)[0]? ≠ some app_header →
      authorityServerStep stA msg now = (AuthOutcome.ignored, stA)) ∧
    (∀ msg p b k rest,
      pySplit msg = health_authority_header :: p :: b :: k :: rest →
      appServerStep dc st msg now =
        (AppMsgOutcome.registered, addPhone st p b k now)) ∧
    (∀ msg p c rest, pySplit msg = smartphone_header :: p :: c :: rest →
      appServerStep dc st msg now =
        (AppMsgOutcome.tokenHandled (observeStep st p (dc c)).1,
          (observeStep st p (dc c)).2)) ∧
    (∀ msg b rest, pySplit msg = app_header :: b :: rest →
      authorityServerStep stA msg now = addDatetime stA b now) := by
  refine ⟨?_, ?_, ?_, ?_, ?_⟩
  · intro msg h1 h2
    simp [appServerStep, h1, h2]
  · intro msg h1
    simp [authorityServerStep, h1]
  · intro msg p b k rest hsplit
    simp [appServerStep, hsplit]
  · intro msg p c rest hsplit
    have hne : smartphone_header ≠ health_authority_header := by decide
    simp [appServerStep, hsplit, hne]
  · intro msg b rest hsplit
    simp [authorityServerStep, hsplit]

/-- C10: the AppBackend dispatch guards no field count: a message whose
leading field is the HealthAuthority tag but which splits into fewer
than four fields, or the Smartphone tag with fewer than three fields,
reaches the out-of-bounds field access (an uncaught Python `IndexError`,
the `indexError` outcome of the total embedding) rather than being
silently ignored; two such short messages witness reachability. -/
theorem short_message_reaches_index_error (dc : String → Ciphertext)
    (st : AppState) (now : Nat) :
    (∀ msg, (pySplit msg)[0]? = some health_authority_header →
      (pySplit msg).length < 4 →
      appServerStep dc st msg now = (AppMsgOutcome.indexError, st)) ∧
    (∀ msg, (pySplit msg)[0]? = some smartphone_header →
      (pySplit msg).length < 3 →
      appServerStep dc st msg now = (AppMsgOutcome.indexError, st)) ∧
    appServerStep dc st "HealthAuthority,skt_01,beacon_01" now =
      (AppMsgOutcome.indexError, st) ∧
    appServerStep dc st "Smartphone,skt_01" now =
      (AppMsgOutcome.indexError, st) := by
  have hs1 : pySplit "HealthAuthority,skt_01,beacon_01" =
      ["HealthAuthority", "skt_01", "beacon_01"] := by decide
  have hs2 : pySplit "Smartphone,skt_01" = ["Smartphone", "skt_01"] := by
    decide
  have hne : smartphone_header ≠ health_authority_header := by decide
  refine ⟨?_, ?_, ?_, ?_⟩
  · intro msg h0 hlen
    have h3 : (pySplit msg)[3]? = none := List.getElem?_eq_none (by omega)
    cases h1 : (pySplit msg)[1]? <;> cases h2 : (pySplit msg)[2]? <;>
      simp [appServerStep, h0, h1, h2, h3]
  · intro msg h0 hlen
    have h2 : (pySplit msg)[2]? = none := List.getElem?_eq_none (by omega)
    cases h1 : (pySplit msg)[1]? <;>
      simp [appServerStep, h0, h1, h2, hne]
  · simp [appServerStep, hs1, health_authority_header, smartphone_header]
  · simp [appServerStep, hs2, health_authority_header, smartphone_header]
